import Mathlib

/-!
Verification of the fault-containment and diagnostic-context subsystem of
foundation_lib: the per-thread error register, the per-thread error context
stack, the context-logging path in log.c, the crash guard protocol, and the
POSIX debugger-presence query in system.c.

The logging sink is abstracted as a list of emitted (severity, text) pairs.
Per-thread state is explicit; the multi-thread model indexes a global state
by thread identity.
-/

namespace Foundation

/-- Error codes (`error_t`): opaque small integers, `ERROR_NONE = 0` is the
rest state; only equality is used. -/
def ERROR_NONE : Nat := 0

def ERROR_INVALID_VALUE : Nat := 1

def ERROR_ACCESS_DENIED : Nat := 8

/-- Severity levels (`error_level_t`), in increasing order as in the enum. -/
def ERRORLEVEL_NONE : Nat := 0

def ERRORLEVEL_DEBUG : Nat := 1

def ERRORLEVEL_INFO : Nat := 2

def ERRORLEVEL_WARNING : Nat := 3

def ERRORLEVEL_ERROR : Nat := 4

/-- One error context frame (`error_frame_t`): a name and a data string.
`none` models a null `const char*` pointer, `some s` a non-null string. -/
structure ErrorFrame where
  name : Option String
  data : Option String
deriving DecidableEq, Repr

/-- Per-thread state: the single-slot error register `current` and the error
context stack. The C `error_context_t` carries a `depth` field and a frame
array with the invariant `depth == number of live frames`; the model collapses
the two into one list (index 0 = oldest/outermost frame, depth = length).
`context = none` models a thread on which the lazily-created context does not
exist (nothing ever pushed, or feature compiled out). -/
structure ThreadState where
  register : Nat
  context : Option (List ErrorFrame)
deriving DecidableEq, Repr

/-- Modelled from the spec: `error_report(level, code)` of error.c (the file
is not under src/; only its tests and callers are). Per spec 4.1 it sets the
calling thread's register `current = code`; it always succeeds and the `level`
argument does not affect register state. -/
def error_report (_level : Nat) (code : Nat) (s : ThreadState) : ThreadState :=
  { s with register := code }

/-- Modelled from the spec: `error()` of error.c (not under src/). Per spec
4.1 it returns the calling thread's `current` and atomically resets it to
`ERROR_NONE`. The pair is (returned code, state after the read). -/
def error (s : ThreadState) : Nat × ThreadState :=
  (s.register, { s with register := ERROR_NONE })

/-- Claim C1: read-once error register. After `report(level, code)` the first
subsequent `read()` returns `code` and resets the register, so a second
`read()` with no intervening report returns `ERROR_NONE`: at most one read
observes a non-NONE value per report. -/
theorem error_register_read_once (level code : Nat) (s : ThreadState) :
    (error (error_report level code s)).1 = code ∧
    (error (error (error_report level code s)).2).1 = ERROR_NONE := by
  constructor <;> rfl

/-- Modelled from the spec: `error_context_push(name, data)` of error.c (not
under src/). Per spec 4.2 it appends a frame (lazily creating the stack on
first push); if depth would exceed the fixed maximum `maxDepth`, the oldest
frame is evicted (ring discipline) instead of growing or corrupting depth. -/
def ctx_push (maxDepth : Nat) (f : ErrorFrame) (l : List ErrorFrame) : List ErrorFrame :=
  if l.length < maxDepth then l ++ [f] else l.tail ++ [f]

/-- Modelled from the spec: `error_context_pop()` of error.c (not under
src/). Per spec 4.2 it removes the most recently pushed frame; popping an
empty stack is a no-op, not an error. -/
def ctx_pop (l : List ErrorFrame) : List ErrorFrame :=
  l.dropLast

/-- One operation on a thread's error context stack. -/
inductive CtxOp where
  | push (f : ErrorFrame)
  | pop
deriving DecidableEq, Repr

/-- Apply one context-stack operation (feature enabled). -/
def ctx_apply (maxDepth : Nat) (l : List ErrorFrame) : CtxOp → List ErrorFrame
  | .push f => ctx_push maxDepth f l
  | .pop => ctx_pop l

/-- Run a sequence of context-stack operations (feature enabled). -/
def ctx_run (maxDepth : Nat) (l : List ErrorFrame) (ops : List CtxOp) : List ErrorFrame :=
  ops.foldl (ctx_apply maxDepth) l

/-- `error_context_push` lifted to `ThreadState` (lazy creation: a push on a
thread without a context creates one). -/
def error_context_push (maxDepth : Nat) (name data : Option String) (s : ThreadState) :
    ThreadState :=
  { s with context := some (ctx_push maxDepth ⟨name, data⟩ (s.context.getD [])) }

/-- `error_context_pop` lifted to `ThreadState`: a no-op when the context was
never created, otherwise drops the most recent frame (defensive on empty). -/
def error_context_pop (s : ThreadState) : ThreadState :=
  { s with context := s.context.map ctx_pop }

/-- Modelled from the spec: `error_context()` of error.c (not under src/),
feature enabled: returns the live per-thread view, or `none` if nothing was
ever pushed on this thread. -/
def error_context (s : ThreadState) : Option (List ErrorFrame) :=
  s.context

/-- Claim C2: context stack ordering. From a thread whose context is absent
or empty, pushing ("error test","data") then ("another test","more data")
yields depth 2 with frame 0 the first pushed pair and frame 1 the second; one
pop restores depth 1 with frame 0 unchanged; a further pop restores depth 0. -/
theorem error_context_ordering (maxDepth : Nat) (s : ThreadState)
    (hmax : 2 ≤ maxDepth) (hinit : s.context = none ∨ s.context = some []) :
    let s2 := error_context_push maxDepth (some "another test") (some "more data")
      (error_context_push maxDepth (some "error test") (some "data") s)
    error_context s2 =
        some [⟨some "error test", some "data"⟩, ⟨some "another test", some "more data"⟩] ∧
    error_context (error_context_pop s2) = some [⟨some "error test", some "data"⟩] ∧
    error_context (error_context_pop (error_context_pop s2)) = some [] := by
  have h0 : 0 < maxDepth := by omega
  have h1 : 1 < maxDepth := by omega
  have hbase : s.context.getD [] = [] := by
    rcases hinit with h | h <;> simp [h]
  refine ⟨?_, ?_, ?_⟩ <;>
    simp [error_context, error_context_push, error_context_pop, ctx_push, ctx_pop,
      hbase, h0, h1]

/-- Witness for C2 at a concrete maximum depth and initial state. -/
theorem error_context_ordering_witness :
    let s : ThreadState := ⟨ERROR_NONE, none⟩
    let s2 := error_context_push 32 (some "another test") (some "more data")
      (error_context_push 32 (some "error test") (some "data") s)
    error_context s2 =
        some [⟨some "error test", some "data"⟩, ⟨some "another test", some "more data"⟩] ∧
    error_context (error_context_pop s2) = some [⟨some "error test", some "data"⟩] ∧
    error_context (error_context_pop (error_context_pop s2)) = some [] :=
  error_context_ordering 32 ⟨ERROR_NONE, none⟩ (by decide) (Or.inl rfl)

/-- Modelled from the spec: the stub build of error.c with
`BUILD_ENABLE_ERROR_CONTEXT` off (error.c is not under src/): push and pop are
silent no-ops that raise no error and leave the whole thread state untouched. -/
def ctx_apply_disabled (s : ThreadState) (_op : CtxOp) : ThreadState :=
  s

/-- Run a sequence of context operations in the disabled build. -/
def ctx_run_disabled (s : ThreadState) (ops : List CtxOp) : ThreadState :=
  ops.foldl ctx_apply_disabled s

/-- Modelled from the spec: `error_context()` with the feature compiled out
always yields absent (a null pointer). -/
def error_context_disabled (_s : ThreadState) : Option (List ErrorFrame) :=
  none

/-- Claim C6: absent-when-disabled. With `BUILD_ENABLE_ERROR_CONTEXT` off,
`error_context()` returns absent after any sequence of push/pop calls, and
those calls are silent no-ops (the thread state, register included, is
unchanged, so no error is raised). -/
theorem error_context_absent_when_disabled (s : ThreadState) (ops : List CtxOp) :
    error_context_disabled (ctx_run_disabled s ops) = none ∧
    ctx_run_disabled s ops = s := by
  refine ⟨rfl, ?_⟩
  induction ops with
  | nil => rfl
  | cons op rest ih => simpa [ctx_run_disabled, ctx_apply_disabled] using ih

/-- One `ctx_apply` step preserves the depth bound when `1 ≤ maxDepth`. -/
theorem ctx_apply_length_le (maxDepth : Nat) (hmax : 1 ≤ maxDepth)
    (l : List ErrorFrame) (op : CtxOp) (hl : l.length ≤ maxDepth) :
    (ctx_apply maxDepth l op).length ≤ maxDepth := by
  cases op with
  | push f =>
    simp only [ctx_apply, ctx_push]
    by_cases h : l.length < maxDepth
    · simp [h]; omega
    · simp [h, List.length_tail]; omega
  | pop =>
    simp only [ctx_apply, ctx_pop, List.length_dropLast]
    omega

/-- Claim C7: depth invariant with saturation and defensive pop. For any
sequence of push/pop operations from a state within the bound, the depth
never exceeds the maximum (and is a Nat, hence never negative); popping an
empty stack leaves it unchanged; pushing at maximum depth evicts the oldest
frame and keeps the depth exactly at the maximum. -/
theorem ctx_depth_invariant (maxDepth : Nat) (hmax : 1 ≤ maxDepth)
    (l : List ErrorFrame) (ops : List CtxOp) (hl : l.length ≤ maxDepth) :
    (ctx_run maxDepth l ops).length ≤ maxDepth ∧
    ctx_pop ([] : List ErrorFrame) = [] ∧
    (∀ (f : ErrorFrame) (l2 : List ErrorFrame), l2.length = maxDepth →
      ctx_push maxDepth f l2 = l2.tail ++ [f] ∧
      (ctx_push maxDepth f l2).length = maxDepth) := by
  refine ⟨?_, rfl, ?_⟩
  · induction ops generalizing l with
    | nil => exact hl
    | cons op rest ih =>
      exact ih (ctx_apply maxDepth l op) (ctx_apply_length_le maxDepth hmax l op hl)
  · intro f l2 hl2
    have hnot : ¬ l2.length < maxDepth := by omega
    constructor
    · simp [ctx_push, hnot]
    · simp [ctx_push, hnot, List.length_tail]
      omega

/-- Witness for C7: maximum depth 2, a full stack of two frames, and an
operation sequence that overflows and then over-pops. -/
theorem ctx_depth_invariant_witness :
    (ctx_run 2 [⟨none, none⟩, ⟨none, none⟩]
        [.push ⟨some "a", none⟩, .pop, .pop, .pop]).length ≤ 2 ∧
    ctx_pop ([] : List ErrorFrame) = [] ∧
    (∀ (f : ErrorFrame) (l2 : List ErrorFrame), l2.length = 2 →
      ctx_push 2 f l2 = l2.tail ++ [f] ∧ (ctx_push 2 f l2).length = 2) :=
  ctx_depth_invariant 2 (by decide) [⟨none, none⟩, ⟨none, none⟩]
    [.push ⟨some "a", none⟩, .pop, .pop, .pop] (by decide)

/-- Embeds the loop body of `error_log_context` in log.c: for each frame, in
array order (index 0 first), one line `When <name>: <data>` is produced, with
`<something>` substituted for a null name and the empty string for null data.
The logging sink is abstracted as the list of emitted (severity, text) pairs;
the timestamp/thread prefix added by `_output_logf` is out of scope. -/
def log_context_frames (error_level : Nat) : List ErrorFrame → List (Nat × String)
  | [] => []
  | frame :: rest =>
    (error_level,
        "When " ++ frame.name.getD "<something>" ++ ": " ++ frame.data.getD "") ::
      log_context_frames error_level rest

/-- Embeds `error_log_context` in log.c: if the thread's context is present,
walk its `depth` frames from index 0 emitting one line each; otherwise emit
nothing. -/
def error_log_context (error_level : Nat) : Option (List ErrorFrame) → List (Nat × String)
  | none => []
  | some frames => log_context_frames error_level frames

/-- Claim C4: context logging content and order. With a context of `d` frames
present, exactly `d` context lines are emitted, in frame order (index 0 =
outermost first), each of the form `When <name>: <data>` with the placeholder
`<something>` for an absent name and the empty string for absent data; with
the context absent no line is emitted. -/
theorem error_log_context_lines (lvl : Nat) (frames : List ErrorFrame)
    (i : Nat) (f : ErrorFrame) (hi : frames.get? i = some f) :
    (error_log_context lvl (some frames)).length = frames.length ∧
    (error_log_context lvl (some frames)).get? i =
      some (lvl, "When " ++ f.name.getD "<something>" ++ ": " ++ f.data.getD "") ∧
    error_log_context lvl none = [] := by
  refine ⟨?_, ?_, rfl⟩
  · clear hi
    induction frames with
    | nil => rfl
    | cons g rest ih => simpa [error_log_context, log_context_frames] using ih
  · induction frames generalizing i with
    | nil => simp at hi
    | cons g rest ih =>
      cases i with
      | zero =>
        simp only [List.get?] at hi
        simp [error_log_context, log_context_frames, Option.some.injEq] at hi ⊢
        simp [hi]
      | succ j =>
        simp only [List.get?] at hi
        simpa [error_log_context, log_context_frames] using ih j hi

/-- Witness for C4 on a two-frame context, one field null in each frame. -/
theorem error_log_context_lines_witness :
    let frames : List ErrorFrame := [⟨none, some "data"⟩, ⟨some "another test", none⟩]
    frames.get? 1 = some ⟨some "another test", none⟩ ∧
    ((error_log_context ERRORLEVEL_WARNING (some frames)).length = frames.length ∧
      (error_log_context ERRORLEVEL_WARNING (some frames)).get? 1 =
        some (ERRORLEVEL_WARNING, "When " ++ (some "another test").getD "<something>" ++
          ": " ++ (none : Option String).getD "") ∧
      error_log_context ERRORLEVEL_WARNING none = []) :=
  ⟨rfl, error_log_context_lines ERRORLEVEL_WARNING
    [⟨none, some "data"⟩, ⟨some "another test", none⟩] 1 ⟨some "another test", none⟩ rfl⟩

/-- Embeds `error_logf(level, err, format, ...)` in log.c: it calls
`error_log_context(ERRORLEVEL_ERROR)` — note the fixed severity, not `level` —
then emits its own line at `ERRORLEVEL_ERROR` with the `ERROR: ` prefix, then
calls `error_report(level, err)`. Returns (emitted lines, new thread state). -/
def error_logf (level err : Nat) (message : String) (s : ThreadState) :
    List (Nat × String) × ThreadState :=
  (error_log_context ERRORLEVEL_ERROR (error_context s) ++
      [(ERRORLEVEL_ERROR, "ERROR: " ++ message)],
    error_report level err s)

/-- Embeds `warn_logf(wclass, format, ...)` in log.c: it calls
`error_log_context(ERRORLEVEL_WARNING)` then emits its own line at
`ERRORLEVEL_WARNING` with the `WARNING: ` prefix; it does not touch the error
register. -/
def warn_logf (_wclass : Nat) (message : String) (s : ThreadState) : List (Nat × String) :=
  error_log_context ERRORLEVEL_WARNING (error_context s) ++
    [(ERRORLEVEL_WARNING, "WARNING: " ++ message)]

/-- Counterexample to claim C5 as stated: calling `error_logf` with
`level = ERRORLEVEL_WARNING` on a thread with one context frame emits that
context line at `ERRORLEVEL_ERROR`, not at the given level. -/
theorem error_logf_severity_counterexample :
    let s : ThreadState := ⟨ERROR_NONE, some [⟨some "error test", some "data"⟩]⟩
    ¬ (∀ p ∈ (error_logf ERRORLEVEL_WARNING ERROR_ACCESS_DENIED "fail" s).1,
        p.1 = ERRORLEVEL_WARNING) ∧
    (error_logf ERRORLEVEL_WARNING ERROR_ACCESS_DENIED "fail" s).1.get? 0 =
      some (ERRORLEVEL_ERROR, "When error test: data") := by
  exact ⟨by decide, rfl⟩

/-- Every line produced by `log_context_frames` carries the severity it was
given. -/
theorem log_context_frames_severity (lvl : Nat) (l : List ErrorFrame) :
    ∀ p ∈ log_context_frames lvl l, p.1 = lvl := by
  induction l with
  | nil => simp [log_context_frames]
  | cons f rest ih =>
    intro p hp
    simp only [log_context_frames, List.mem_cons] at hp
    rcases hp with h | h
    · simp [h]
    · exact ih p h

/-- Claim C5 as amended: each context log line is emitted at a fixed severity
determined by the entry point — always `ERRORLEVEL_ERROR` from `error_logf`
(regardless of its `level` argument) and always `ERRORLEVEL_WARNING` from
`warn_logf` — not at the `level` argument of the report call. -/
theorem context_log_severity_fixed (level err wclass : Nat) (message : String)
    (s : ThreadState) (p q : Nat × String)
    (hp : p ∈ (error_logf level err message s).1)
    (hq : q ∈ warn_logf wclass message s) :
    p.1 = ERRORLEVEL_ERROR ∧ q.1 = ERRORLEVEL_WARNING := by
  constructor
  · simp only [error_logf, List.mem_append, List.mem_singleton] at hp
    rcases hp with h | h
    · cases hctx : error_context s with
      | none => rw [hctx] at h; simp [error_log_context] at h
      | some frames =>
        rw [hctx] at h
        exact log_context_frames_severity ERRORLEVEL_ERROR frames p h
    · simp [h]
  · simp only [warn_logf, List.mem_append, List.mem_singleton] at hq
    rcases hq with h | h
    · cases hctx : error_context s with
      | none => rw [hctx] at h; simp [error_log_context] at h
      | some frames =>
        rw [hctx] at h
        exact log_context_frames_severity ERRORLEVEL_WARNING frames q h
    · simp [h]

/-- Witness for the amended C5: a concrete context line from each entry
point, with `level = ERRORLEVEL_WARNING` handed to `error_logf`. -/
theorem context_log_severity_fixed_witness :
    (ERRORLEVEL_ERROR, "When error test: data").1 = ERRORLEVEL_ERROR ∧
    (ERRORLEVEL_WARNING, "When error test: data").1 = ERRORLEVEL_WARNING :=
  context_log_severity_fixed ERRORLEVEL_WARNING ERROR_ACCESS_DENIED 0 "fail"
    ⟨ERROR_NONE, some [⟨some "error test", some "data"⟩]⟩
    (ERRORLEVEL_ERROR, "When error test: data")
    (ERRORLEVEL_WARNING, "When error test: data") (by decide) (by decide)

/-- Claim C10: after `error_logf(level, err, ...)` returns, the calling
thread's register holds `err` — the emitted lines are the context lines (as of
the call) followed by the primary line, and the state delegates to
`error_report(level, err)`, so the next `error()` read returns `err`. -/
theorem error_logf_sets_register (level err : Nat) (message : String) (s : ThreadState) :
    (error_logf level err message s).2.register = err ∧
    (error (error_logf level err message s).2).1 = err ∧
    (error_logf level err message s).1 =
      error_log_context ERRORLEVEL_ERROR (error_context s) ++
        [(ERRORLEVEL_ERROR, "ERROR: " ++ message)] :=
  ⟨rfl, rfl, rfl⟩

/-- Outcome of a guarded workload: it either returns a value normally or
raises a synchronous fault (as `instant_crash` in the crash test does). -/
inductive WorkOutcome where
  | returns (value : Int)
  | faults
deriving DecidableEq, Repr

/-- Result of a guarded call (`FOUNDATION_CRASH_DUMP_GENERATED` etc.). -/
inductive CrashGuardResult where
  | COMPLETED (value : Int)
  | CRASH_DUMP_GENERATED
  | CRASH_DUMP_FAILED
deriving DecidableEq, Repr

/-- Modelled from the spec: the dump artifact path synthesized by the crash
guard of crash.c (not under src/), derived from the guard label plus process
id and timestamp for uniqueness, with a fixed dump suffix. -/
def dump_path (label : String) (pid timestamp : Nat) : String :=
  label ++ "-" ++ toString pid ++ "-" ++ toString timestamp ++ ".dmp"

/-- Modelled from the spec: `crash_guard(work, arg, dumpHandler, label)` of
crash.c (not under src/). On normal return it yields `COMPLETED` with the
workload's value and no handler invocation. On a fault it synthesizes the
dump path and invokes the handler exactly once with it, yielding
`CRASH_DUMP_GENERATED`; if dump synthesis itself fails (`dumpOk = false`) it
still invokes the handler once, with the empty sentinel path, yielding
`CRASH_DUMP_FAILED`. The second component is the list of paths passed to the
handler; that the function totally returns a result to its caller models the
guarantee that the fault does not terminate the process. -/
def crash_guard (work : WorkOutcome) (label : String) (pid timestamp : Nat)
    (dumpOk : Bool) : CrashGuardResult × List String :=
  match work with
  | .returns v => (.COMPLETED v, [])
  | .faults =>
    if dumpOk then (.CRASH_DUMP_GENERATED, [dump_path label pid timestamp])
    else (.CRASH_DUMP_FAILED, [""])

/-- Claim C3: guard containment and exactly-once callback. Running a workload
that deliberately traps under the guard (with dump synthesis succeeding)
returns `CRASH_DUMP_GENERATED`, invokes the dump handler exactly once with a
non-empty path, and control returns to the guard's caller. -/
theorem crash_guard_containment (label : String) (pid timestamp : Nat) :
    (crash_guard .faults label pid timestamp true).1 = .CRASH_DUMP_GENERATED ∧
    (crash_guard .faults label pid timestamp true).2 = [dump_path label pid timestamp] ∧
    dump_path label pid timestamp ≠ "" := by
  refine ⟨rfl, rfl, ?_⟩
  intro h
  have hlen : (dump_path label pid timestamp).length = ("" : String).length := by rw [h]
  have h4 : (".dmp" : String).length = 4 := rfl
  simp only [dump_path, String.length_append, String.length_empty, h4] at hlen
  omega

/-- Embeds `system_debugger_attached` from the POSIX branch of system.c: its
body is `return false;`. The argument is the ghost fact of whether a debugger
is actually attached, which the implementation ignores. -/
def system_debugger_attached_posix (_debugger_actually_attached : Bool) : Bool :=
  false

/-- Embeds the arming decision of the crash tests in test/crash/main.c: the
test skips the crash guard exactly when `system_debugger_attached()` returns
true. -/
def crash_test_skips_guard (attached : Bool) : Bool :=
  system_debugger_attached_posix attached

/-- Claim C9: on POSIX platforms `system_debugger_attached()` returns false on
every call, whether or not a debugger is actually attached; hence callers that
skip the guard when a debugger is reported present never skip it on POSIX. -/
theorem system_debugger_attached_posix_false (attached : Bool) :
    system_debugger_attached_posix attached = false ∧
    crash_test_skips_guard attached = false :=
  ⟨rfl, rfl⟩

/-- One operation a thread performs on its own error state in the concurrent
stress model (the loop body of `error_thread` in the error test: report/read
plus push/push/pop/pop and `error_context()` queries). -/
inductive ThreadOp where
  | report (level code : Nat)
  | read
  | push (name data : Option String)
  | pop
  | query
deriving DecidableEq, Repr

/-- What one operation makes its thread observe: a `read` observes the
register value it returns, a `query` observes the context view (frames and
depth); other operations observe nothing. -/
inductive ThreadObs where
  | code (value : Nat)
  | ctx (view : Option (List ErrorFrame))
deriving DecidableEq, Repr

/-- Per-thread transition for one operation. -/
def thread_step (maxDepth : Nat) (s : ThreadState) : ThreadOp → ThreadState
  | .report level code => error_report level code s
  | .read => (error s).2
  | .push name data => error_context_push maxDepth name data s
  | .pop => error_context_pop s
  | .query => s

/-- Per-thread observations for one operation, taken on the state before the
operation's transition. -/
def thread_obs (s : ThreadState) : ThreadOp → List ThreadObs
  | .read => [.code (error s).1]
  | .query => [.ctx (error_context s)]
  | _ => []

/-- Global concurrent state: each thread identity owns one `ThreadState`
(thread-local storage); there is no shared cell and no lock. -/
def global_step (maxDepth : Nat) (g : Nat → ThreadState) (t : Nat) (op : ThreadOp) :
    Nat → ThreadState :=
  fun u => if u = t then thread_step maxDepth (g t) op else g u

/-- Run an interleaved trace of (thread, operation) events, accumulating each
observation tagged with the thread that made it. -/
def global_run (maxDepth : Nat) (g : Nat → ThreadState) :
    List (Nat × ThreadOp) → (Nat → ThreadState) × List (Nat × ThreadObs)
  | [] => (g, [])
  | (t, op) :: rest =>
    let r := global_run maxDepth (global_step maxDepth g t op) rest
    (r.1, (thread_obs (g t) op).map (fun o => (t, o)) ++ r.2)

/-- Run a sequence of operations on a single thread's state in isolation. -/
def local_run (maxDepth : Nat) (s : ThreadState) :
    List ThreadOp → ThreadState × List ThreadObs
  | [] => (s, [])
  | op :: rest =>
    let r := local_run maxDepth (thread_step maxDepth s op) rest
    (r.1, thread_obs s op ++ r.2)

/-- The subsequence of an interleaved trace belonging to thread `t`. -/
def trace_proj (t : Nat) (trace : List (Nat × ThreadOp)) : List ThreadOp :=
  trace.filterMap fun p => if p.1 = t then some p.2 else none

/-- The subsequence of tagged observations made by thread `t`. -/
def obs_proj (t : Nat) (obs : List (Nat × ThreadObs)) : List ThreadObs :=
  obs.filterMap fun p => if p.1 = t then some p.2 else none

/-- Projecting observations tagged with the same thread keeps them all. -/
theorem obs_proj_tag_same (t : Nat) (l : List ThreadObs) :
    obs_proj t (l.map fun o => (t, o)) = l := by
  induction l with
  | nil => rfl
  | cons o rest ih => simpa [obs_proj, List.filterMap_cons] using ih

/-- Projecting observations tagged with a different thread drops them all. -/
theorem obs_proj_tag_other (u t : Nat) (h : u ≠ t) (l : List ThreadObs) :
    obs_proj t (l.map fun o => (u, o)) = [] := by
  induction l with
  | nil => rfl
  | cons o rest ih =>
    simp only [List.map_cons, obs_proj, List.filterMap_cons, if_neg h]
    exact ih

/-- Claim C8: cross-thread isolation. For any interleaved trace of report/read
and push/pop/query operations by any set of threads, each thread's final
state and its whole observation sequence (error codes read, context frames
and depth seen) are exactly those of running its own subsequence alone on its
own state: no thread ever observes another thread's register or context, and
no lock is involved. -/
theorem thread_isolation (maxDepth : Nat) (g : Nat → ThreadState)
    (trace : List (Nat × ThreadOp)) (t : Nat) :
    (global_run maxDepth g trace).1 t =
      (local_run maxDepth (g t) (trace_proj t trace)).1 ∧
    obs_proj t (global_run maxDepth g trace).2 =
      (local_run maxDepth (g t) (trace_proj t trace)).2 := by
  induction trace generalizing g with
  | nil => exact ⟨rfl, rfl⟩
  | cons e rest ih =>
    obtain ⟨u, op⟩ := e
    by_cases h : u = t
    · subst h
      have hproj : trace_proj u ((u, op) :: rest) = op :: trace_proj u rest := by
        simp [trace_proj]
      have hstep : global_step maxDepth g u op u = thread_step maxDepth (g u) op := by
        simp [global_step]
      obtain ⟨ih1, ih2⟩ := ih (global_step maxDepth g u op)
      rw [hstep] at ih1 ih2
      refine ⟨?_, ?_⟩
      · simpa [global_run, hproj, local_run] using ih1
      · simp only [global_run, hproj, local_run]
        rw [show obs_proj u ((thread_obs (g u) op).map (fun o => (u, o)) ++
            (global_run maxDepth (global_step maxDepth g u op) rest).2) =
            obs_proj u ((thread_obs (g u) op).map fun o => (u, o)) ++
              obs_proj u (global_run maxDepth (global_step maxDepth g u op) rest).2
          from List.filterMap_append _ _ _]
        rw [obs_proj_tag_same, ih2]
    · have htu : t ≠ u := fun hh => h hh.symm
      have hproj : trace_proj t ((u, op) :: rest) = trace_proj t rest := by
        simp [trace_proj, h]
      have hstate : global_step maxDepth g u op t = g t := by
        simp [global_step, htu]
      obtain ⟨ih1, ih2⟩ := ih (global_step maxDepth g u op)
      rw [hstate] at ih1 ih2
      refine ⟨?_, ?_⟩
      · simpa [global_run, hproj] using ih1
      · simp only [global_run, hproj]
        rw [show obs_proj t ((thread_obs (g u) op).map (fun o => (u, o)) ++
            (global_run maxDepth (global_step maxDepth g u op) rest).2) =
            obs_proj t ((thread_obs (g u) op).map fun o => (u, o)) ++
              obs_proj t (global_run maxDepth (global_step maxDepth g u op) rest).2
          from List.filterMap_append _ _ _]
        rw [obs_proj_tag_other u t h, List.nil_append, ih2]

end Foundation
